import Mathlib

/-!
Verification of the cyclical-dcf Monte Carlo simulator (src/main.py) against its
natural-language specification.

The embedding below translates the Python source into Lean:

* Python floats are modelled as exact rationals (ℚ).
* The company dictionary becomes the structure `Company`, with fields in the
  order of the source dictionary.
* The random draw of `np.random.choice` is made explicit: the simulation loop
  receives a function `draws : ℕ → Fin 4` giving, for each simulated year, the
  index of the value drawn from the candidate list `[.3, .2, -.1, -.3]`.
* Python's division raises `ZeroDivisionError` when the divisor is a scalar
  zero; fallible computations therefore return `Except SimError`.
* The loop `year = 0; while company.equity >= 0 and year <= 50: year += 1; ...`
  executes its body exactly for the post-increment year values 1, 2, ..., 51
  while the company stays solvent: the guard `year <= 50` is tested on the
  pre-increment value, so the body can run with `year = 51`.  The loop is
  embedded with a structurally decreasing fuel counter that starts at 51 with
  the 1-based year running alongside it, which reproduces that behaviour
  exactly.
-/

/-- Error raised by Python when a scalar division has divisor zero. -/
inductive SimError where
  | divByZero
deriving DecidableEq

/-- The company dictionary of `generate_company` in src/main.py, with the
fields in the order of the source dictionary.  `cfs` is the list of
(amount, year) cash-flow pairs. -/
structure Company where
  equity : ℚ
  target_leverage : ℚ
  debt : ℚ
  reinvest_rate : ℚ
  cfs : List (ℚ × ℕ)
deriving DecidableEq

/-- Module-level risk-free rate `rfr = .04` of src/main.py. -/
def rfr : ℚ := 4/100

/-- `dcf` from src/main.py: present value of a list of (cash flow, year)
pairs at a given interest rate,
`sum([cf[0] / (1 + rate) ** cf[1] for cf in cashflows])`. -/
def dcf (cashflows : List (ℚ × ℕ)) (rate : ℚ) : ℚ :=
  (cashflows.map (fun cf => cf.1 / (1 + rate) ^ cf.2)).sum

/-- The default value `rate=rfr + 0.06` of the `rate` parameter of `dcf`
in src/main.py, used when the caller omits the rate. -/
def dcf_default_rate : ℚ := rfr + 6/100

/-- `generate_company` from src/main.py: initial debt is
`equity * target_leverage - equity` and the cash-flow list starts empty. -/
def generate_company (equity target_leverage reinvest_rate : ℚ) : Company :=
  { equity := equity
    target_leverage := target_leverage
    debt := equity * target_leverage - equity
    reinvest_rate := reinvest_rate
    cfs := [] }

/-- The candidate return values `[.3, .2, -.1, -.3]` of the
`np.random.choice` call in `gen_profit` of src/main.py. -/
def roa_values : Fin 4 → ℚ
  | 0 => 3/10
  | 1 => 2/10
  | 2 => -1/10
  | 3 => -3/10

/-- Probability with which the source call
`np.random.choice([.3, .2, -.1, -.3], 1, [.3, .3, .25, .05])` draws each
candidate index.  The signature of `numpy.random.choice` is
`choice(a, size=None, replace=True, p=None)`, so the third positional
argument `[.3, .3, .25, .05]` is bound to `replace` (a truthy value) and `p`
stays `None`, which makes numpy sample uniformly over the four candidates:
each index is drawn with probability 1/4. -/
def code_draw_prob : Fin 4 → ℚ := fun _ => 1/4

/-- Modelled from the spec: the per-index probabilities
{0.30, 0.30, 0.25, 0.05} that the specification states for the return draw,
to be compared with `code_draw_prob`. -/
def claimed_draw_prob : Fin 4 → ℚ
  | 0 => 30/100
  | 1 => 30/100
  | 2 => 25/100
  | 3 => 5/100

/-- `debt_cost` from src/main.py:
`actual_leverage = (debt + equity) / equity` (a scalar division by zero
raises in Python, hence the `Except`); when `actual_leverage >= 0` the rate
is `rfr + 0.005 + math.floor(actual_leverage * 2) * 0.01`, otherwise `rfr`. -/
def debt_cost (company : Company) : Except SimError ℚ :=
  if company.equity = 0 then .error .divByZero
  else
    let actual_leverage := (company.debt + company.equity) / company.equity
    if 0 ≤ actual_leverage then
      .ok (rfr + 5/1000 + (⌊actual_leverage * 2⌋ : ℚ) * (1/100))
    else
      .ok rfr

/-- `gen_profit` from src/main.py with the random draw made explicit:
`roa` is the drawn candidate plus `profit_bump`,
`ebit = roa * (equity + debt)` and the result is
`ebit - debt_cost(company) * debt`.  A `ZeroDivisionError` raised inside
`debt_cost` propagates. -/
def gen_profit (company : Company) (draw : Fin 4) (profit_bump : ℚ) :
    Except SimError ℚ :=
  let roa := roa_values draw + profit_bump
  let ebit := roa * (company.equity + company.debt)
  match debt_cost company with
  | .error e => .error e
  | .ok cost => .ok (ebit - cost * company.debt)

/-- One loop body of `generate_company_cfs` (src/main.py lines 83-97) after
the profit has been drawn: compute `actual_leverage`, then either pay down
debt, or retain/re-lever/pay a dividend, or absorb a loss, appending exactly
one (amount, year) pair. -/
def sim_step (company : Company) (profit : ℚ) (year : ℕ) :
    Except SimError Company :=
  if company.equity = 0 then .error .divByZero
  else
    let actual_leverage := (company.debt + company.equity) / company.equity
    if 0 ≤ profit then
      if company.target_leverage ≤ actual_leverage then
        .ok { company with
              debt := company.debt - profit
              equity := company.equity + profit
              cfs := company.cfs ++ [(0, year)] }
      else
        let dividend := profit * (1 - company.reinvest_rate)
        let retained := profit * company.reinvest_rate
        let equity2 := company.equity + retained
        .ok { company with
              equity := equity2
              debt := equity2 * company.target_leverage - equity2
              cfs := company.cfs ++ [(dividend, year)] }
    else
      .ok { company with
            equity := company.equity + profit
            cfs := company.cfs ++ [(0, year)] }

/-- One full iteration of the loop in `generate_company_cfs`: draw the
year's profit with `gen_profit`, then apply `sim_step`. -/
def sim_year (company : Company) (draw : Fin 4) (profit_bump : ℚ) (year : ℕ) :
    Except SimError Company :=
  match gen_profit company draw profit_bump with
  | .error e => .error e
  | .ok profit => sim_step company profit year

/-- The while loop of `generate_company_cfs` in src/main.py.  The Python
loop tests `equity >= 0 and year <= 50` and increments `year` at the top of
the body, so the body runs for post-increment years 1..51 while solvent.
Here `fuel` counts the remaining possible iterations (`fuel = 52 - year` for
the 1-based `year` argument): the body at year `y` runs exactly when
`fuel > 0` (that is, `y ≤ 51`) and `0 ≤ equity`. -/
def generate_company_cfs_aux (draws : ℕ → Fin 4) (profit_bump : ℚ) :
    ℕ → ℕ → Company → Except SimError Company
  | 0, _, company => .ok company
  | fuel + 1, year, company =>
    if 0 ≤ company.equity then
      match sim_year company (draws year) profit_bump year with
      | .error e => .error e
      | .ok c2 => generate_company_cfs_aux draws profit_bump fuel (year + 1) c2
    else
      .ok company

/-- `generate_company_cfs` from src/main.py: run the yearly loop starting
from `year = 0` (so the first executed body has year 1) with at most 51
iterations, returning the final company. -/
def generate_company_cfs (company : Company) (draws : ℕ → Fin 4)
    (profit_bump : ℚ) : Except SimError Company :=
  generate_company_cfs_aux draws profit_bump 51 1 company

/-- Modelled from the spec (claim C2's wording of the yearly transition), to
be compared with `sim_step`: if `profit >= 0` and
`actual_leverage >= target_leverage` then debt decreases by profit, equity
increases by profit and the recorded dividend is 0; if `profit >= 0` and
`actual_leverage < target_leverage` then the recorded dividend is
`profit * (1 - reinvest_rate)`, equity increases by
`profit * reinvest_rate` and debt is reset to
`equity * target_leverage - equity`; if `profit < 0` then equity increases
by profit, debt is unchanged and the recorded dividend is 0. -/
def claimed_step (company : Company) (profit : ℚ) (year : ℕ) : Company :=
  let actual_leverage := (company.debt + company.equity) / company.equity
  if 0 ≤ profit then
    if company.target_leverage ≤ actual_leverage then
      { company with
        debt := company.debt - profit
        equity := company.equity + profit
        cfs := company.cfs ++ [(0, year)] }
    else
      let equity2 := company.equity + profit * company.reinvest_rate
      { company with
        equity := equity2
        debt := equity2 * company.target_leverage - equity2
        cfs := company.cfs ++ [(profit * (1 - company.reinvest_rate), year)] }
  else
    { company with
      equity := company.equity + profit
      cfs := company.cfs ++ [(0, year)] }

/-- Minimal model of a numpy floating-point scalar, used to state what the
leverage division in src/main.py line 83 does once the company's fields hold
numpy arrays (which happens after the first simulated year, because
`gen_profit` returns a one-element numpy array and
`company['equity'] += profit` stores one). -/
inductive NpFloat where
  | val (q : ℚ)
  | inf
  | ninf
  | nan
deriving DecidableEq

/-- Division of numpy floating-point scalars as performed by
`numpy` for array operands: dividing a nonzero value by zero yields a signed
infinity (with a runtime warning, not an exception), `0/0` yields `nan`, and
nonzero divisors divide exactly in this rational idealization. -/
def np_div : NpFloat → NpFloat → NpFloat
  | .val a, .val b =>
    if b = 0 then
      if a = 0 then .nan
      else if 0 < a then .inf
      else .ninf
    else .val (a / b)
  | _, _ => .nan

/-- The final company of the two-year concrete run used by the witnesses:
starting from `generate_company 10 2 (1/2)` and drawing index 3
(return -0.3) every year, the company loses 6.85 in year 1 and 5.195 in
year 2, going insolvent with cash flows [(0,1), (0,2)]. -/
def two_year_ruin_company : Company :=
  { equity := -409/200
    target_leverage := 2
    debt := 10
    reinvest_rate := 1/2
    cfs := [(0, 1), (0, 2)] }

deriving instance DecidableEq for Except

/-- Concrete company used by the C3 witness: the re-levered result of one
reinvestment step from equity 10, debt 5, target leverage 2, profit 4. -/
def relever_witness_company : Company :=
  { equity := 12, target_leverage := 2, debt := 12, reinvest_rate := 1/2,
    cfs := [(2, 1)] }

/-- Concrete company used by the C6 witness: equity 10, debt 30, so actual
leverage is 4. -/
def lev4_company : Company :=
  { equity := 10, target_leverage := 2, debt := 30, reinvest_rate := 1/2,
    cfs := [] }

/-- Claim C2: for every company state with nonzero equity (the zero case
raises, see C9), the yearly transition of the simulation loop is exactly the
three-case split stated by the specification, as recorded in
`claimed_step`. -/
theorem sim_step_eq_claimed_step (c : Company) (profit : ℚ) (year : ℕ)
    (h : c.equity ≠ 0) :
    sim_step c profit year = .ok (claimed_step c profit year) := by
  simp only [sim_step, claimed_step, if_neg h]
  split_ifs <;> rfl

unseal Rat.mul Rat.add Rat.sub Rat.inv Rat.ofScientific in
/-- Witness for C2 at equity 10, debt 5, target leverage 2, profit 4. -/
theorem sim_step_eq_claimed_step_witness :
    sim_step { equity := 10, target_leverage := 2, debt := 5,
               reinvest_rate := 1/2, cfs := [] } 4 1 =
      .ok (claimed_step { equity := 10, target_leverage := 2, debt := 5,
                          reinvest_rate := 1/2, cfs := [] } 4 1) :=
  sim_step_eq_claimed_step _ 4 1 (by decide)

/-- Claim C3: `generate_company` establishes
`debt = equity * target_leverage - equity`, and every
reinvestment-triggered re-levering step (nonnegative profit, actual leverage
below target) restores it for the updated fields. -/
theorem relever_restores_target (e tl rr : ℚ) (c : Company) (profit : ℚ)
    (year : ℕ) (c' : Company) (h0 : c.equity ≠ 0) (h1 : 0 ≤ profit)
    (h2 : (c.debt + c.equity) / c.equity < c.target_leverage)
    (h3 : sim_step c profit year = .ok c') :
    (generate_company e tl rr).debt = e * tl - e ∧
    c'.debt = c'.equity * c'.target_leverage - c'.equity := by
  refine ⟨rfl, ?_⟩
  unfold sim_step at h3
  rw [if_neg h0] at h3
  simp only [if_pos h1, if_neg (not_le.mpr h2), Except.ok.injEq] at h3
  subst h3
  rfl

unseal Rat.mul Rat.add Rat.sub Rat.inv Rat.ofScientific in
/-- Witness for C3: the step from equity 10, debt 5, target 2, profit 4
re-levers to equity 12, debt 12. -/
theorem relever_restores_target_witness :
    (generate_company 10 2 (1/2)).debt = 10 * 2 - 10 ∧
    relever_witness_company.debt =
      relever_witness_company.equity * relever_witness_company.target_leverage
        - relever_witness_company.equity :=
  relever_restores_target 10 2 (1/2)
    { equity := 10, target_leverage := 2, debt := 5, reinvest_rate := 1/2,
      cfs := [] }
    4 1 relever_witness_company (by decide) (by decide) (by decide) (by decide)

/-- Claim C4 (divergence): the `np.random.choice` call of `gen_profit`
passes its weight list positionally into `replace`, so every candidate
index is drawn uniformly with probability 1/4, which differs from the
claimed probabilities 0.30/0.30/0.25/0.05. -/
theorem draw_distribution_uniform :
    (∀ i : Fin 4, code_draw_prob i = 1/4) ∧
    code_draw_prob 0 ≠ claimed_draw_prob 0 ∧
    code_draw_prob 3 ≠ claimed_draw_prob 3 := by
  refine ⟨fun i => rfl, ?_, ?_⟩ <;>
    · unfold code_draw_prob claimed_draw_prob
      norm_num

/-- Claim C6: with nonzero equity, `debt_cost` returns the floor-based
formula when actual leverage is nonnegative and the bare risk-free rate
otherwise; in particular a company constructed at target leverage -0.5 pays
exactly the risk-free rate for every nonzero equity magnitude. -/
theorem debt_cost_cases (c : Company) (e rr : ℚ) (h : c.equity ≠ 0)
    (he : e ≠ 0) :
    debt_cost c = .ok
      (if 0 ≤ (c.debt + c.equity) / c.equity
        then rfr + 5/1000 + (⌊(c.debt + c.equity) / c.equity * 2⌋ : ℚ) * (1/100)
        else rfr) ∧
    debt_cost (generate_company e (-(1/2)) rr) = .ok rfr := by
  have main : ∀ d : Company, d.equity ≠ 0 → debt_cost d = .ok
      (if 0 ≤ (d.debt + d.equity) / d.equity
        then rfr + 5/1000 + (⌊(d.debt + d.equity) / d.equity * 2⌋ : ℚ) * (1/100)
        else rfr) := by
    intro d hd
    simp only [debt_cost, if_neg hd]
    split_ifs <;> rfl
  refine ⟨main c h, ?_⟩
  have hne : (generate_company e (-(1/2)) rr).equity ≠ 0 := he
  rw [main _ hne]
  have hval : ((generate_company e (-(1/2)) rr).debt
      + (generate_company e (-(1/2)) rr).equity)
      / (generate_company e (-(1/2)) rr).equity = -(1/2) := by
    show (e * -(1/2) - e + e) / e = -(1/2)
    rw [div_eq_iff he]
    ring
  rw [hval]
  norm_num

unseal Rat.mul Rat.add Rat.sub Rat.inv Rat.ofScientific in
/-- Witness for C6 at actual leverage 4 (equity 10, debt 30) and at the
net-cash company generated with equity 7, target leverage -0.5. -/
theorem debt_cost_cases_witness :
    debt_cost lev4_company = .ok
      (if 0 ≤ (lev4_company.debt + lev4_company.equity) / lev4_company.equity
        then rfr + 5/1000
          + (⌊(lev4_company.debt + lev4_company.equity) / lev4_company.equity * 2⌋ : ℚ)
            * (1/100)
        else rfr) ∧
    debt_cost (generate_company 7 (-(1/2)) (1/2)) = .ok rfr :=
  debt_cost_cases lev4_company 7 (1/2) (by decide) (by decide)

/-- Claim C7: `dcf` is the discounted sum, characterized by its value 0 on
the empty sequence and its cons equation, and the rate used when the caller
omits it is the risk-free rate plus 0.06. -/
theorem dcf_sum_and_default (cfs : List (ℚ × ℕ)) (rate a : ℚ) (y : ℕ) :
    dcf [] rate = 0 ∧
    dcf ((a, y) :: cfs) rate = a / (1 + rate) ^ y + dcf cfs rate ∧
    dcf_default_rate = rfr + 6/100 := by
  refine ⟨rfl, ?_, rfl⟩
  unfold dcf
  simp

/-- Claim C8: `dcf` is invariant under any permutation of its input
cash-flow sequence. -/
theorem dcf_reorder (l l' : List (ℚ × ℕ)) (rate : ℚ) (h : l.Perm l') :
    dcf l rate = dcf l' rate :=
  List.Perm.sum_eq (List.Perm.map _ h)

/-- Witness for C8: swapping a two-element cash-flow list leaves the
discounted value unchanged. -/
theorem dcf_reorder_witness :
    dcf [(1, 1), (2, 2)] (1/10) = dcf [(2, 2), (1, 1)] (1/10) :=
  dcf_reorder _ _ _ (List.Perm.swap _ _ _)

/-- Structure of one successful loop iteration: it preserves
`target_leverage` and `reinvest_rate` and appends exactly one
(amount, year) pair; the amount is 0 whenever the step drove a previously
nonnegative equity negative (with nonnegative reinvestment rate only the
loss branch can do that), and the amount is nonnegative whenever the
reinvestment rate lies in [0, 1]. -/
theorem sim_year_ok (c : Company) (d : Fin 4) (pb : ℚ) (y : ℕ) (c' : Company)
    (h : sim_year c d pb y = .ok c') :
    c'.target_leverage = c.target_leverage ∧
    c'.reinvest_rate = c.reinvest_rate ∧
    ∃ a : ℚ, c'.cfs = c.cfs ++ [(a, y)] ∧
      (0 ≤ c.equity → 0 ≤ c.reinvest_rate → c'.equity < 0 → a = 0) ∧
      (0 ≤ c.reinvest_rate → c.reinvest_rate ≤ 1 → 0 ≤ a) := by
  by_cases hc : c.equity = 0
  · simp [sim_year, gen_profit, debt_cost, hc] at h
  · cases hg : gen_profit c d pb with
    | error e =>
      unfold sim_year at h
      rw [hg] at h
      exact Except.noConfusion h
    | ok p =>
      unfold sim_year at h
      rw [hg] at h
      change sim_step c p y = .ok c' at h
      simp only [sim_step, if_neg hc] at h
      split_ifs at h with h1 h2
      · simp only [Except.ok.injEq] at h
        subst h
        exact ⟨rfl, rfl, 0, rfl, fun _ _ _ => rfl, fun _ _ => le_rfl⟩
      · simp only [Except.ok.injEq] at h
        subst h
        refine ⟨rfl, rfl, p * (1 - c.reinvest_rate), rfl, ?_, ?_⟩
        · intro he hrr hneg
          exfalso
          simp only at hneg
          nlinarith [mul_nonneg h1 hrr]
        · intro hrr0 hrr1
          exact mul_nonneg h1 (by linarith)
      · simp only [Except.ok.injEq] at h
        subst h
        exact ⟨rfl, rfl, 0, rfl, fun _ _ _ => rfl, fun _ _ => le_rfl⟩

/-- Main invariant of the simulation loop: a successful run from fuel `n`
and 1-based year `year` preserves the static fields and appends a block `t`
of cash-flow events whose years are consecutive starting at `year`, with at
most `n` events, at least one if the loop is enterable, termination before
fuel exhaustion only by insolvency, an immediate return for an insolvent
start, a final zero-amount event whenever the run ends insolvent after a
solvent start (for nonnegative reinvestment rate), and all amounts
nonnegative when the reinvestment rate lies in [0, 1]. -/
theorem aux_invariant (draws : ℕ → Fin 4) (pb : ℚ) :
    ∀ (n year : ℕ) (c c' : Company),
      generate_company_cfs_aux draws pb n year c = .ok c' →
      c'.target_leverage = c.target_leverage ∧
      c'.reinvest_rate = c.reinvest_rate ∧
      ∃ t : List (ℚ × ℕ),
        c'.cfs = c.cfs ++ t ∧
        t.map Prod.snd = List.range' year t.length ∧
        t.length ≤ n ∧
        (1 ≤ n → 0 ≤ c.equity → 1 ≤ t.length) ∧
        (t.length < n → c'.equity < 0) ∧
        (c.equity < 0 → c' = c ∧ t = []) ∧
        (t = [] → c' = c) ∧
        (0 ≤ c.reinvest_rate → 0 ≤ c.equity → c'.equity < 0 →
          t.getLast? = some (0, year + t.length - 1)) ∧
        (0 ≤ c.reinvest_rate → c.reinvest_rate ≤ 1 → ∀ cf ∈ t, 0 ≤ cf.1) := by
  intro n
  induction n with
  | zero =>
    intro year c c' h
    simp only [generate_company_cfs_aux, Except.ok.injEq] at h
    subst h
    refine ⟨rfl, rfl, [], by simp, rfl, le_rfl, ?_, ?_, fun _ => ⟨rfl, rfl⟩,
      fun _ => rfl, ?_, ?_⟩
    · intro h1 _
      omega
    · intro h1
      exact absurd h1 (by omega)
    · intro _ he hneg
      exact absurd hneg (not_lt.mpr he)
    · intro _ _ cf hcf
      simp at hcf
  | succ n ih =>
    intro year c c' h
    simp only [generate_company_cfs_aux] at h
    split_ifs at h with hge
    · split at h
      · exact Except.noConfusion h
      · rename_i c2 hy
        obtain ⟨htl2, hrr2, a, hcfs2, hzero, hnn⟩ :=
          sim_year_ok c (draws year) pb year c2 hy
        obtain ⟨htl, hrr, t₂, hA, hB, hC, hD, hE, hF, hG, hH, hI⟩ :=
          ih (year + 1) c2 c' h
        refine ⟨htl.trans htl2, hrr.trans hrr2, (a, year) :: t₂,
          ?_, ?_, ?_, ?_, ?_, ?_, ?_, ?_, ?_⟩
        · rw [hA, hcfs2, List.append_assoc]
          rfl
        · simp only [List.map_cons, List.length_cons, List.range'_succ]
          rw [hB]
        · simp only [List.length_cons]
          omega
        · intro _ _
          simp only [List.length_cons]
          omega
        · intro hlt
          apply hE
          simp only [List.length_cons] at hlt
          omega
        · intro hlt
          exact absurd hlt (not_lt.mpr hge)
        · intro hnil
          exact absurd hnil (by simp)
        · intro hrr0 he0 hneg
          cases t₂ with
          | nil =>
            have hc2 : c' = c2 := hG rfl
            have ha : a = 0 := hzero he0 hrr0 (hc2 ▸ hneg)
            subst ha
            simp
          | cons b l =>
            have h2pos : 0 ≤ c2.equity := by
              by_contra hc2
              obtain ⟨-, hnil⟩ := hF (not_le.mp hc2)
              exact List.noConfusion hnil
            have hlast := hH (by rw [hrr2]; exact hrr0) h2pos hneg
            rw [List.getLast?_cons_cons, hlast]
            congr 2
            simp only [List.length_cons]
            omega
        · intro hrr0 hrr1 cf hcf
          rcases List.mem_cons.mp hcf with hcf | hcf
          · subst hcf
            exact hnn hrr0 hrr1
          · exact hI (by rw [hrr2]; exact hrr0) (by rw [hrr2]; exact hrr1) cf hcf
    · simp only [Except.ok.injEq] at h
      subst h
      have hlt : c.equity < 0 := not_le.mp hge
      refine ⟨rfl, rfl, [], by simp, rfl, Nat.zero_le _, ?_, ?_,
        fun _ => ⟨rfl, rfl⟩, fun _ => rfl, ?_, ?_⟩
      · intro _ he
        exact absurd hlt (not_lt.mpr he)
      · intro _
        exact hlt
      · intro _ he _
        exact absurd hlt (not_lt.mpr he)
      · intro _ _ cf hcf
        simp at hcf

/-- Claim C1 (amended): every successful trial from a freshly constructed
company with positive equity records between 1 and 51 cash-flow events —
51, not 50, because the guard `year <= 50` is tested before the in-loop
increment — exactly one per simulated year, with years consecutive
starting at 1. -/
theorem cfs_length_and_years (e tl rr : ℚ) (draws : ℕ → Fin 4) (pb : ℚ)
    (c' : Company) (he : 0 < e)
    (h : generate_company_cfs (generate_company e tl rr) draws pb = .ok c') :
    1 ≤ c'.cfs.length ∧ c'.cfs.length ≤ 51 ∧
    c'.cfs.map Prod.snd = List.range' 1 c'.cfs.length := by
  obtain ⟨-, -, t, hA, hB, hC, hD, -, -, -, -, -⟩ :=
    aux_invariant draws pb 51 1 (generate_company e tl rr) c' h
  have ht : c'.cfs = t := by
    rw [hA]
    rfl
  rw [ht]
  exact ⟨hD (by norm_num) (le_of_lt he), hC, hB⟩

unseal Rat.mul Rat.add Rat.sub Rat.inv Rat.ofScientific in
/-- Witness for C1 at the two-year ruin run. -/
theorem cfs_length_and_years_witness :
    1 ≤ two_year_ruin_company.cfs.length ∧
    two_year_ruin_company.cfs.length ≤ 51 ∧
    two_year_ruin_company.cfs.map Prod.snd =
      List.range' 1 two_year_ruin_company.cfs.length :=
  cfs_length_and_years 10 2 (1/2) (fun _ => 3) 0 two_year_ruin_company
    (by decide) (by decide)

unseal Rat.mul Rat.add Rat.sub Rat.inv Rat.ofScientific in
/-- Counterexample to claim C1 as stated: drawing the 0.3 return every year
keeps the default company solvent through every iteration, and that trial
records 51 cash-flow events, violating the claimed upper bound of 50. -/
theorem fifty_one_cfs_counterexample :
    Except.map (fun c : Company => c.cfs.length)
      (generate_company_cfs (generate_company 10 2 (1/2)) (fun _ => 0) 0) =
      .ok 51 ∧
    ¬ (51 ≤ 50) := ⟨by decide, by decide⟩

/-- Claim C5: if a successful trial from a fresh company with positive
equity and nonnegative reinvestment rate terminates with fewer than 50
recorded years, the final equity is negative and the last recorded
cash-flow event is the losing year's zero-amount event. -/
theorem early_ruin (e tl rr : ℚ) (draws : ℕ → Fin 4) (pb : ℚ) (c' : Company)
    (he : 0 < e) (hrr : 0 ≤ rr)
    (h : generate_company_cfs (generate_company e tl rr) draws pb = .ok c')
    (hlen : c'.cfs.length < 50) :
    c'.equity < 0 ∧ c'.cfs.getLast? = some (0, c'.cfs.length) := by
  obtain ⟨-, -, t, hA, -, -, -, hE, -, -, hH, -⟩ :=
    aux_invariant draws pb 51 1 (generate_company e tl rr) c' h
  have ht : c'.cfs = t := by
    rw [hA]
    rfl
  rw [ht] at hlen ⊢
  have hneg : c'.equity < 0 := hE (by omega)
  refine ⟨hneg, ?_⟩
  have hlast := hH hrr (le_of_lt he) hneg
  have h1 : 1 + t.length - 1 = t.length := by omega
  rw [h1] at hlast
  exact hlast

unseal Rat.mul Rat.add Rat.sub Rat.inv Rat.ofScientific in
/-- Witness for C5 at the two-year ruin run. -/
theorem early_ruin_witness :
    two_year_ruin_company.equity < 0 ∧
    two_year_ruin_company.cfs.getLast? =
      some (0, two_year_ruin_company.cfs.length) :=
  early_ruin 10 2 (1/2) (fun _ => 3) 0 two_year_ruin_company
    (by decide) (by decide) (by decide) (by decide)

/-- Claim C10: when the reinvestment rate lies in [0, 1], every cash-flow
event recorded by a successful trial has a nonnegative amount. -/
theorem dividends_nonneg (e tl rr : ℚ) (draws : ℕ → Fin 4) (pb : ℚ)
    (c' : Company) (hrr0 : 0 ≤ rr) (hrr1 : rr ≤ 1)
    (h : generate_company_cfs (generate_company e tl rr) draws pb = .ok c') :
    ∀ cf ∈ c'.cfs, 0 ≤ cf.1 := by
  obtain ⟨-, -, t, hA, -, -, -, -, -, -, -, hI⟩ :=
    aux_invariant draws pb 51 1 (generate_company e tl rr) c' h
  have ht : c'.cfs = t := by
    rw [hA]
    rfl
  rw [ht]
  exact hI hrr0 hrr1

unseal Rat.mul Rat.add Rat.sub Rat.inv Rat.ofScientific in
/-- Witness for C10 at the first recorded event of the two-year ruin run. -/
theorem dividends_nonneg_witness :
    ((0 : ℚ), 1) ∈ two_year_ruin_company.cfs ∧
    0 ≤ (((0 : ℚ), 1) : ℚ × ℕ).1 :=
  ⟨by decide,
   dividends_nonneg 10 2 (1/2) (fun _ => 3) 0 two_year_ruin_company
     (by decide) (by decide) (by decide) (0, 1) (by decide)⟩

/-- Claim C9 (divergence evidence): under numpy semantics — which govern
the company fields from the second simulated year on, since
`company['equity'] += profit` stores a one-element numpy array — the
leverage division with zero equity does not raise: a nonzero numerator
divided by zero yields a signed infinity and `0/0` yields nan, silently. -/
theorem np_div_zero_no_error :
    np_div (.val 10) (.val 0) = NpFloat.inf ∧
    np_div (.val 0) (.val 0) = NpFloat.nan := by
  refine ⟨?_, ?_⟩ <;> norm_num [np_div]
